import Mathlib

/-!
Verification of the retry-execution engine in `src/retryable/src/lib.rs`
(crate `retryable` of thepacketgeek/rust-macros-demo).

The Rust code is shallowly embedded:
- `std::time::Duration` becomes a wrapper around a `Nat` of milliseconds.
- A fallible operation (`FnMut() -> Result<T, E>`) becomes a pure state
  transition `σ → RustResult T E × σ`: the closure's captured mutable state
  is the `σ`, one invocation consumes a state and yields the result plus
  the successor state.
- `Retryable::try_call` (lib.rs lines 85-101) becomes `tryCallLoop` /
  `Retryable.tryCall`, with the loop's two effects made observable: the
  list of durations passed to `std::thread::sleep`, in order, and the
  number of invocations of the wrapped operation.
- The `retry!` declarative rewrite (lib.rs lines 37-56) becomes
  `retryLoop`, likewise instrumented with the invocation count.
- The strategy value built by the expansion of the `retryable!` call shape
  `$f; retries=$r; delay=$d` (lib.rs lines 198-203) becomes
  `retryableRetriesDelayStrategy`.
-/

/-- Rust `Result<T, E>`. -/
inductive RustResult (T E : Type) where
  | ok : T → RustResult T E
  | err : E → RustResult T E
deriving DecidableEq, Repr

/-- Rust `Result::is_ok`. -/
def RustResult.isOk {T E : Type} : RustResult T E → Bool
  | .ok _ => true
  | .err _ => false

/-- Rust `Result::is_err`. -/
def RustResult.isErr {T E : Type} : RustResult T E → Bool
  | .ok _ => false
  | .err _ => true

/-- `std::time::Duration`, modelled as a count of milliseconds. -/
structure Duration where
  millis : Nat
deriving DecidableEq, Repr

/-- `Duration::from_millis`. -/
def Duration.fromMillis (m : Nat) : Duration := ⟨m⟩

/-- `Duration::from_secs`. -/
def Duration.fromSecs (s : Nat) : Duration := ⟨1000 * s⟩

/-- Total milliseconds slept over a list of sleep durations. -/
def Duration.sumMillis (l : List Duration) : Nat :=
  l.foldr (fun x acc => x.millis + acc) 0

/-- `enum RetryDelay` (lib.rs lines 145-149).  Only `Fixed` exists; the
exponential variant is a commented-out TODO in the source. -/
inductive RetryDelay where
  | Fixed : Duration → RetryDelay
deriving DecidableEq, Repr

/-- `struct RetryStrategy` (lib.rs lines 114-118). -/
structure RetryStrategy where
  retries : Nat
  delay : RetryDelay
deriving DecidableEq, Repr

/-- `RetryStrategy::new` (lib.rs lines 121-123). -/
def RetryStrategy.new (retries : Nat) (delay : RetryDelay) : RetryStrategy :=
  { retries := retries, delay := delay }

/-- `RetryStrategy::with_retries` (lib.rs lines 125-128): sets `retries`,
returns the updated strategy (`&mut Self` in Rust, value-passing here). -/
def RetryStrategy.withRetries (s : RetryStrategy) (retries : Nat) : RetryStrategy :=
  { s with retries := retries }

/-- `RetryStrategy::with_delay` (lib.rs lines 130-133): sets `delay`,
returns the updated strategy. -/
def RetryStrategy.withDelay (s : RetryStrategy) (delay : RetryDelay) : RetryStrategy :=
  { s with delay := delay }

/-- `impl Default for RetryStrategy` (lib.rs lines 136-143). -/
def RetryStrategy.default : RetryStrategy :=
  { retries := 3, delay := RetryDelay.Fixed (Duration.fromSecs 2) }

/-- `struct Retryable` (lib.rs lines 63-69).  The `FnMut` closure `inner`
is split into its pure transition function and its current mutable state. -/
structure Retryable (σ T E : Type) where
  inner : σ → RustResult T E × σ
  innerState : σ
  strategy : RetryStrategy

/-- `Retryable::new` (lib.rs lines 76-81). -/
def Retryable.new {σ T E : Type} (func : σ → RustResult T E × σ) (s0 : σ)
    (strategy : RetryStrategy) : Retryable σ T E :=
  { inner := func, innerState := s0, strategy := strategy }

/-- `Retryable::next_run_time` (lib.rs lines 103-107). -/
def Retryable.nextRunTime {σ T E : Type} (r : Retryable σ T E) : Duration :=
  match r.strategy.delay with
  | RetryDelay.Fixed delay => delay

/-- Observable outcome of one `try_call` session: the returned result, the
final state of the wrapped closure, the durations passed to
`thread::sleep` in order (one per loop iteration, before the invocation),
and the number of invocations of the operation (one per loop iteration). -/
structure LoopOut (σ T E : Type) where
  res : RustResult T E
  state : σ
  sleeps : List Duration
  calls : Nat
deriving Repr

/-- The loop body of `Retryable::try_call` (lib.rs lines 88-100):
sleep `delayTime`, invoke the operation once; on success break with the
result; on failure with retries remaining, decrement, set the delay from
`next_run_time`, and iterate; on failure with no retries left, break with
the failure. -/
def tryCallLoop {σ T E : Type} (r : Retryable σ T E) :
    Nat → Duration → σ → LoopOut σ T E
  | retries, delayTime, s =>
    let p := r.inner s
    if p.1.isOk then
      { res := p.1, state := p.2, sleeps := [delayTime], calls := 1 }
    else
      match retries with
      | 0 => { res := p.1, state := p.2, sleeps := [delayTime], calls := 1 }
      | rr + 1 =>
        let q := tryCallLoop r rr r.nextRunTime p.2
        { res := q.res, state := q.state,
          sleeps := delayTime :: q.sleeps, calls := q.calls + 1 }

/-- `Retryable::try_call` (lib.rs lines 85-101): initialize
`retries = self.strategy.retries` and `delay_time = Duration::from_millis(0)`,
then run the loop starting from the closure's current state. -/
def Retryable.tryCall {σ T E : Type} (r : Retryable σ T E) : LoopOut σ T E :=
  tryCallLoop r r.strategy.retries (Duration.fromMillis 0) r.innerState

/-- The `Retryable` instance as it stands after `try_call` returns: since
`try_call` takes `&mut self`, the instance survives the call with its
closure state advanced and its strategy untouched. -/
def Retryable.afterCall {σ T E : Type} (r : Retryable σ T E) : Retryable σ T E :=
  { r with innerState := (r.tryCall).state }

/-- Observable outcome of one `retry!` session (no sleeping happens). -/
structure RetryOut (σ T E : Type) where
  res : RustResult T E
  state : σ
  calls : Nat
deriving Repr

/-- The loop expanded by the `retry!` rewrite rule with an explicit retry
count (lib.rs lines 38-51): invoke the operation; on success break with
the result; on failure with retries remaining, decrement and iterate; on
failure with no retries left, break with the failure.  No waiting. -/
def retryLoop {σ T E : Type} (op : σ → RustResult T E × σ) :
    Nat → σ → RetryOut σ T E
  | retries, s =>
    let p := op s
    if p.1.isOk then
      { res := p.1, state := p.2, calls := 1 }
    else
      match retries with
      | 0 => { res := p.1, state := p.2, calls := 1 }
      | rr + 1 =>
        let q := retryLoop op rr p.2
        { res := q.res, state := q.state, calls := q.calls + 1 }

/-- The `RetryStrategy` value built by the expansion of
`retryable!($f; retries=$r; delay=$d)` (lib.rs lines 198-203).  The source
rule reads
`RetryStrategy::default().with_delay(RetryDelay::Fixed(Duration::from_secs($d)))`
and never applies `with_retries($r)`; the parameter `r` is accordingly
unused here, mirroring the source. -/
def retryableRetriesDelayStrategy (_r : Nat) (d : Nat) : RetryStrategy :=
  RetryStrategy.default.withDelay (RetryDelay.Fixed (Duration.fromSecs d))

/-- Full behaviour of `retryable!($f; retries=$r; delay=$d)` (lib.rs lines
198-203): wrap the operation in a `Retryable` with that strategy and run
`try_call`. -/
def retryableRetriesDelay {σ T E : Type} (f : σ → RustResult T E × σ) (s0 : σ)
    (r : Nat) (d : Nat) : LoopOut σ T E :=
  (Retryable.new f s0 (retryableRetriesDelayStrategy r d)).tryCall

/-- State of the wrapped closure after `n` invocations from `s`. -/
def iterState {σ T E : Type} (op : σ → RustResult T E × σ) : Nat → σ → σ
  | 0, s => s
  | n + 1, s => iterState op n (op s).2

/-- Concrete operation that always fails with error `7` (for witnesses). -/
def failOp : Unit → RustResult Nat Nat × Unit :=
  fun _ => (RustResult.err 7, ())

/-- Concrete operation over a `Nat` counter state: fails (with the current
counter as the error) while the counter is below `k`, succeeds (returning
the counter) from then on; every invocation increments the counter. -/
def succAfter (k : Nat) : Nat → RustResult Nat Nat × Nat :=
  fun s => if s < k then (RustResult.err s, s + 1) else (RustResult.ok s, s + 1)

/-! ## Helper lemmas -/

theorem isOk_eq_false {T E : Type} {x : RustResult T E} (h : x.isErr = true) :
    x.isOk = false := by
  cases x <;> simp [RustResult.isOk, RustResult.isErr] at h ⊢

theorem nextRunTime_fixed {σ T E : Type} (r : Retryable σ T E) (d : Duration)
    (h : r.strategy.delay = RetryDelay.Fixed d) : r.nextRunTime = d := by
  unfold Retryable.nextRunTime
  rw [h]

theorem sumMillis_cons (x : Duration) (l : List Duration) :
    Duration.sumMillis (x :: l) = x.millis + Duration.sumMillis l := rfl

theorem sumMillis_replicate (m : Nat) (d : Duration) :
    Duration.sumMillis (List.replicate m d) = m * d.millis := by
  induction m with
  | zero => simp [Duration.sumMillis]
  | succ mm ih =>
    rw [List.replicate_succ, sumMillis_cons, ih, Nat.succ_mul, Nat.add_comm]

theorem tryCallLoop_always_err {σ T E : Type} (r : Retryable σ T E)
    (h : ∀ s, ((r.inner s).1).isErr = true) :
    ∀ (retries : Nat) (dt : Duration) (s : σ),
      tryCallLoop r retries dt s =
        { res := (r.inner (iterState r.inner retries s)).1,
          state := iterState r.inner (retries + 1) s,
          sleeps := dt :: List.replicate retries r.nextRunTime,
          calls := retries + 1 } := by
  intro retries
  induction retries with
  | zero =>
    intro dt s
    rw [tryCallLoop]
    simp [isOk_eq_false (h s), iterState]
  | succ rr ih =>
    intro dt s
    rw [tryCallLoop]
    simp only [isOk_eq_false (h s), Bool.false_eq_true, if_false]
    rw [ih r.nextRunTime (r.inner s).2]
    simp [iterState, List.replicate_succ]

theorem tryCallLoop_sleeps {σ T E : Type} (r : Retryable σ T E) :
    ∀ (retries : Nat) (dt : Duration) (s : σ),
      ∃ m, (tryCallLoop r retries dt s).sleeps =
          dt :: List.replicate m r.nextRunTime ∧
        (tryCallLoop r retries dt s).calls = m + 1 := by
  intro retries
  induction retries with
  | zero =>
    intro dt s
    refine ⟨0, ?_⟩
    rw [tryCallLoop]
    by_cases hb : ((r.inner s).1).isOk = true <;> simp [hb]
  | succ rr ih =>
    intro dt s
    by_cases hb : ((r.inner s).1).isOk = true
    · refine ⟨0, ?_⟩
      rw [tryCallLoop]
      simp [hb]
    · obtain ⟨m, hs, hc⟩ := ih r.nextRunTime (r.inner s).2
      refine ⟨m + 1, ?_⟩
      rw [tryCallLoop]
      simp [hb, hs, hc, List.replicate_succ]

theorem tryCallLoop_succeeds_after {σ T E : Type} (r : Retryable σ T E) :
    ∀ (k retries : Nat) (dt : Duration) (s : σ),
      k ≤ retries →
      (∀ i, i < k → ((r.inner (iterState r.inner i s)).1).isErr = true) →
      ((r.inner (iterState r.inner k s)).1).isOk = true →
      (tryCallLoop r retries dt s).res = (r.inner (iterState r.inner k s)).1 ∧
      (tryCallLoop r retries dt s).calls = k + 1 ∧
      (tryCallLoop r retries dt s).state = iterState r.inner (k + 1) s := by
  intro k
  induction k with
  | zero =>
    intro retries dt s _ _ hok
    simp only [iterState] at hok
    rw [tryCallLoop.eq_def]
    simp [hok, iterState]
  | succ kk ih =>
    intro retries dt s hle hfail hok
    have h0 : ((r.inner s).1).isErr = true := by
      have h00 := hfail 0 (Nat.succ_pos kk)
      simpa [iterState] using h00
    obtain ⟨rr, rfl⟩ : ∃ rr, retries = rr + 1 := by
      cases retries with
      | zero => exact absurd hle (by omega)
      | succ rr => exact ⟨rr, rfl⟩
    have hle2 : kk ≤ rr := by omega
    have hfail2 : ∀ i, i < kk →
        ((r.inner (iterState r.inner i (r.inner s).2)).1).isErr = true := by
      intro i hi
      have hsucc := hfail (i + 1) (Nat.succ_lt_succ hi)
      simpa [iterState] using hsucc
    have hok2 : ((r.inner (iterState r.inner kk (r.inner s).2)).1).isOk = true := by
      simpa [iterState] using hok
    obtain ⟨h1, h2, h3⟩ := ih rr r.nextRunTime (r.inner s).2 hle2 hfail2 hok2
    rw [tryCallLoop]
    simp [isOk_eq_false h0, h1, h2, h3, iterState]

theorem retryLoop_eq_tryCallLoop {σ T E : Type} (r : Retryable σ T E) :
    ∀ (retries : Nat) (dt : Duration) (s : σ),
      (retryLoop r.inner retries s).res = (tryCallLoop r retries dt s).res ∧
      (retryLoop r.inner retries s).calls = (tryCallLoop r retries dt s).calls ∧
      (retryLoop r.inner retries s).state = (tryCallLoop r retries dt s).state := by
  intro retries
  induction retries with
  | zero =>
    intro dt s
    rw [retryLoop, tryCallLoop]
    by_cases hb : ((r.inner s).1).isOk = true <;> simp [hb]
  | succ rr ih =>
    intro dt s
    by_cases hb : ((r.inner s).1).isOk = true
    · rw [retryLoop, tryCallLoop]
      simp [hb]
    · obtain ⟨h1, h2, h3⟩ := ih r.nextRunTime (r.inner s).2
      rw [retryLoop, tryCallLoop]
      simp [hb, h1, h2, h3]

/-! ## Claims -/

/-- C1: the `retryable!` rule for `retries=$r; delay=$d` supplied together
(lib.rs lines 198-203) is expected to produce a policy with
`max_retries = r` and delay `Fixed(d seconds)`.  Evaluated at the failing
input `retries = 5, delay = 1` with an always-failing operation: the
executed strategy keeps the default `max_retries = 3` (the source rule
builds `RetryStrategy::default().with_delay(..)` and never applies
`with_retries($r)`), so the operation is invoked 4 times rather than 6;
only the delay option takes effect. -/
theorem c1_code_bug_eval :
    (retryableRetriesDelayStrategy 5 1).retries = 3 ∧
    (retryableRetriesDelayStrategy 5 1).delay =
      RetryDelay.Fixed (Duration.fromSecs 1) ∧
    (retryableRetriesDelay failOp () 5 1).calls = 4 := by
  decide

/-- C2: for any `Retryable` whose strategy has `retries = N` and whose
operation fails on every invocation, `try_call` invokes the operation
exactly N+1 times and returns, unmodified, the failure value produced by
the final (N+1-th) invocation. -/
theorem c2_always_fail_exhaustion {σ T E : Type} (r : Retryable σ T E) (N : Nat)
    (hN : r.strategy.retries = N)
    (h : ∀ s, ((r.inner s).1).isErr = true) :
    (r.tryCall).calls = N + 1 ∧
    (r.tryCall).res = (r.inner (iterState r.inner N r.innerState)).1 ∧
    ((r.tryCall).res).isErr = true := by
  have key := tryCallLoop_always_err r h N (Duration.fromMillis 0) r.innerState
  rw [Retryable.tryCall, hN, key]
  exact ⟨rfl, rfl, h _⟩

/-- Witness for C2: with `retries = 2` and the always-failing `failOp`,
`try_call` performs 3 invocations and returns the last failure. -/
theorem c2_witness :
    ((Retryable.new failOp () (RetryStrategy.new 2 (RetryDelay.Fixed (Duration.fromSecs 1)))).tryCall).calls = 2 + 1 ∧
    ((Retryable.new failOp () (RetryStrategy.new 2 (RetryDelay.Fixed (Duration.fromSecs 1)))).tryCall).res =
      ((Retryable.new failOp () (RetryStrategy.new 2 (RetryDelay.Fixed (Duration.fromSecs 1)))).inner
        (iterState (Retryable.new failOp () (RetryStrategy.new 2 (RetryDelay.Fixed (Duration.fromSecs 1)))).inner 2
          (Retryable.new failOp () (RetryStrategy.new 2 (RetryDelay.Fixed (Duration.fromSecs 1)))).innerState)).1 ∧
    (((Retryable.new failOp () (RetryStrategy.new 2 (RetryDelay.Fixed (Duration.fromSecs 1)))).tryCall).res).isErr = true :=
  c2_always_fail_exhaustion _ 2 rfl (fun _ => rfl)

/-- C3: for any `Retryable` whose strategy has `retries = N` and whose
operation fails on exactly its first k invocations (k ≤ N) and succeeds on
the next one, `try_call` invokes the operation exactly k+1 times and
returns the success value of the (k+1)-th invocation. -/
theorem c3_eventual_success {σ T E : Type} (r : Retryable σ T E) (k N : Nat)
    (hN : r.strategy.retries = N) (hk : k ≤ N)
    (hfail : ∀ i, i < k →
      ((r.inner (iterState r.inner i r.innerState)).1).isErr = true)
    (hok : ((r.inner (iterState r.inner k r.innerState)).1).isOk = true) :
    (r.tryCall).calls = k + 1 ∧
    (r.tryCall).res = (r.inner (iterState r.inner k r.innerState)).1 ∧
    ((r.tryCall).res).isOk = true := by
  have hk2 : k ≤ r.strategy.retries := by rw [hN]; exact hk
  obtain ⟨h1, h2, h3⟩ := tryCallLoop_succeeds_after r k r.strategy.retries
    (Duration.fromMillis 0) r.innerState hk2 hfail hok
  refine ⟨h2, h1, ?_⟩
  show (tryCallLoop r r.strategy.retries (Duration.fromMillis 0) r.innerState).res.isOk = true
  rw [h1]
  exact hok

/-- Witness for C3: `succAfter 2` fails on its first two invocations and
succeeds from the third on; with `retries = 3`, `try_call` performs 3
invocations and returns the third invocation's success value `ok 2`. -/
theorem c3_witness :
    ((Retryable.new (succAfter 2) 0 (RetryStrategy.new 3 (RetryDelay.Fixed (Duration.fromSecs 1)))).tryCall).calls = 2 + 1 ∧
    ((Retryable.new (succAfter 2) 0 (RetryStrategy.new 3 (RetryDelay.Fixed (Duration.fromSecs 1)))).tryCall).res = RustResult.ok 2 := by
  obtain ⟨h1, h2, h3⟩ := c3_eventual_success
    (Retryable.new (succAfter 2) 0 (RetryStrategy.new 3 (RetryDelay.Fixed (Duration.fromSecs 1))))
    2 3 rfl (by decide) (by decide) (by decide)
  refine ⟨h1, ?_⟩
  rw [h2]
  decide

/-- C4: for any `Retryable` whose strategy has `retries = 0`, `try_call`
invokes the operation exactly once and returns that invocation's result
unconditionally (success or failure); the only sleep performed is the
zero-duration one before the first invocation, so no delay is waited and
no retry happens. -/
theorem c4_zero_retries {σ T E : Type} (r : Retryable σ T E)
    (h : r.strategy.retries = 0) :
    (r.tryCall).res = (r.inner r.innerState).1 ∧
    (r.tryCall).calls = 1 ∧
    (r.tryCall).sleeps = [Duration.fromMillis 0] := by
  rw [Retryable.tryCall, h, tryCallLoop]
  by_cases hb : ((r.inner r.innerState).1).isOk = true <;> simp [hb]

/-- Witness for C4: with `retries = 0` and an operation whose first
invocation fails, `try_call` returns that failure after a single
invocation with a single zero sleep. -/
theorem c4_witness :
    ((Retryable.new (succAfter 1) 0 (RetryStrategy.new 0 (RetryDelay.Fixed (Duration.fromSecs 2)))).tryCall).res = RustResult.err 0 ∧
    ((Retryable.new (succAfter 1) 0 (RetryStrategy.new 0 (RetryDelay.Fixed (Duration.fromSecs 2)))).tryCall).calls = 1 ∧
    ((Retryable.new (succAfter 1) 0 (RetryStrategy.new 0 (RetryDelay.Fixed (Duration.fromSecs 2)))).tryCall).sleeps = [Duration.fromMillis 0] := by
  obtain ⟨h1, h2, h3⟩ := c4_zero_retries
    (Retryable.new (succAfter 1) 0 (RetryStrategy.new 0 (RetryDelay.Fixed (Duration.fromSecs 2)))) rfl
  refine ⟨?_, h2, h3⟩
  rw [h1]
  decide

/-- C5 counterexample: the claim says a `Retryable` is consumed by its
single execution entry point, making a second execution on the same
instance impossible.  In the source `try_call` takes `&mut self`, so the
instance survives: here the same instance (with its closure state advanced
by the first session) runs a second session that succeeds — the first
session exhausts its budget with `err 1`, the second returns `ok 3`. -/
theorem c5_counterexample :
    ((Retryable.new (succAfter 3) 0 (RetryStrategy.new 1 (RetryDelay.Fixed (Duration.fromMillis 0)))).tryCall).res = RustResult.err 1 ∧
    ((Retryable.new (succAfter 3) 0 (RetryStrategy.new 1 (RetryDelay.Fixed (Duration.fromMillis 0)))).afterCall.tryCall).res = RustResult.ok 3 := by
  decide

/-- C5 (amended): `try_call` takes the executor by mutable reference, not
by value, so the instance is not consumed: after a session it retains its
operation and its strategy unchanged (only the closure state advances),
and a second session on the same instance re-reads the full retry budget
from the strategy, starting from the post-session closure state. -/
theorem c5_reusable {σ T E : Type} (r : Retryable σ T E) :
    r.afterCall.inner = r.inner ∧
    r.afterCall.strategy = r.strategy ∧
    r.afterCall.tryCall =
      tryCallLoop r.afterCall r.strategy.retries (Duration.fromMillis 0)
        (r.tryCall).state :=
  ⟨rfl, rfl, rfl⟩

/-- C6: in every `try_call` session under a `Fixed d` strategy, the sleep
before the first invocation is zero and the sleep before each of the m
subsequent invocations is exactly d; the session performs m retries
(calls = m + 1) and the total time slept is exactly m * d milliseconds —
hence wall-clock time is at least m * d. -/
theorem c6_fixed_delay_schedule {σ T E : Type} (r : Retryable σ T E)
    (d : Duration) (h : r.strategy.delay = RetryDelay.Fixed d) :
    ∃ m, (r.tryCall).sleeps = Duration.fromMillis 0 :: List.replicate m d ∧
      (r.tryCall).calls = m + 1 ∧
      Duration.sumMillis (r.tryCall).sleeps = m * d.millis := by
  have hn : r.nextRunTime = d := nextRunTime_fixed r d h
  obtain ⟨m, hs, hc⟩ := tryCallLoop_sleeps r r.strategy.retries
    (Duration.fromMillis 0) r.innerState
  rw [hn] at hs
  refine ⟨m, hs, hc, ?_⟩
  show Duration.sumMillis (tryCallLoop r r.strategy.retries (Duration.fromMillis 0) r.innerState).sleeps = m * d.millis
  rw [hs, sumMillis_cons, sumMillis_replicate]
  simp [Duration.fromMillis]

/-- Witness for C6: `succAfter 2` under `retries = 3, Fixed (1 s)`: the
session sleeps `[0, 1000 ms, 1000 ms]`, performing 2 retries for a total
wait of 2 seconds. -/
theorem c6_witness :
    ∃ m, ((Retryable.new (succAfter 2) 0 (RetryStrategy.new 3 (RetryDelay.Fixed (Duration.fromSecs 1)))).tryCall).sleeps =
        Duration.fromMillis 0 :: List.replicate m (Duration.fromSecs 1) ∧
      ((Retryable.new (succAfter 2) 0 (RetryStrategy.new 3 (RetryDelay.Fixed (Duration.fromSecs 1)))).tryCall).calls = m + 1 ∧
      Duration.sumMillis ((Retryable.new (succAfter 2) 0 (RetryStrategy.new 3 (RetryDelay.Fixed (Duration.fromSecs 1)))).tryCall).sleeps =
        m * (Duration.fromSecs 1).millis :=
  c6_fixed_delay_schedule _ _ rfl

/-- C7: the delay lookup `next_run_time` applied to a strategy whose delay
is `Fixed d` returns exactly d; the function takes no attempt index, so
the result cannot depend on which attempt just failed. -/
theorem c7_fixed_delay_lookup {σ T E : Type} (r : Retryable σ T E)
    (d : Duration) (h : r.strategy.delay = RetryDelay.Fixed d) :
    r.nextRunTime = d :=
  nextRunTime_fixed r d h

/-- Witness for C7: a concrete `Retryable` with delay `Fixed (5 s)` has
`next_run_time = 5 s`. -/
theorem c7_witness :
    (Retryable.new failOp () (RetryStrategy.new 3 (RetryDelay.Fixed (Duration.fromSecs 5)))).nextRunTime =
      Duration.fromSecs 5 :=
  c7_fixed_delay_lookup _ _ rfl

/-- C8: `RetryStrategy::default` yields exactly the policy with
`retries = 3` and delay `Fixed (2 seconds)`. -/
theorem c8_default_strategy :
    RetryStrategy.default =
      { retries := 3, delay := RetryDelay.Fixed (Duration.fromSecs 2) } :=
  rfl

/-- C9: `with_retries n` sets the `retries` field to n and leaves `delay`
unchanged; `with_delay d` sets the `delay` field to d and leaves `retries`
unchanged; each returns the updated policy. -/
theorem c9_builder_frame (s : RetryStrategy) (n : Nat) (d : RetryDelay) :
    (s.withRetries n).retries = n ∧
    (s.withRetries n).delay = s.delay ∧
    (s.withDelay d).delay = d ∧
    (s.withDelay d).retries = s.retries :=
  ⟨rfl, rfl, rfl, rfl⟩

/-- C10: for every operation, start state and retry count n, the loop
expanded by `retry!` (with `retries = n`) returns the same result, performs
the same number of invocations, and leaves the operation in the same final
state as `Retryable::try_call` with strategy `retries = n, Fixed 0`; the
two retry engines agree up to the (zero) waiting. -/
theorem c10_retry_equiv_retryable {σ T E : Type} (op : σ → RustResult T E × σ)
    (s0 : σ) (n : Nat) :
    (retryLoop op n s0).res =
      ((Retryable.new op s0 (RetryStrategy.new n (RetryDelay.Fixed (Duration.fromMillis 0)))).tryCall).res ∧
    (retryLoop op n s0).calls =
      ((Retryable.new op s0 (RetryStrategy.new n (RetryDelay.Fixed (Duration.fromMillis 0)))).tryCall).calls ∧
    (retryLoop op n s0).state =
      ((Retryable.new op s0 (RetryStrategy.new n (RetryDelay.Fixed (Duration.fromMillis 0)))).tryCall).state :=
  retryLoop_eq_tryCallLoop
    (Retryable.new op s0 (RetryStrategy.new n (RetryDelay.Fixed (Duration.fromMillis 0))))
    n (Duration.fromMillis 0) s0
